import Mathlib

/-!
Shallow embedding of the accord bridge (src/main.rs): the schema types and
their conversion rules, the command extractor, the dispatch URL construction,
the per-event handler, the main event loop, and a JSON encoding of the payload
types for the serialization round-trip property.
-/

/-- JSON values, the shape produced by the serde serializer for the payloads. -/
inductive Json where
  | null : Json
  | bool (b : Bool) : Json
  | num (n : Nat) : Json
  | str (s : String) : Json
  | arr (elems : List Json) : Json
  | obj (fields : List (String × Json)) : Json

/-- Modelled from the spec: external platform attachment record (twilight),
deep-copied with value semantics and otherwise opaque to the core (spec 4.1);
represented by an abstract payload. -/
structure Attachment where
  payload : Nat

/-- Modelled from the spec: external platform embed record, opaque (spec 4.1). -/
structure Embed where
  payload : Nat

/-- Modelled from the spec: external platform reaction record, opaque (spec 4.1). -/
structure MessageReaction where
  payload : Nat

/-- Modelled from the spec: external platform application record, opaque (spec 4.1). -/
structure MessageApplication where
  payload : Nat

/-- Modelled from the spec: external platform message-type enumeration,
copied verbatim by the conversions; represented by its numeric code. -/
structure MessageType where
  code : Nat

/-- Modelled from the spec: external platform user record (twilight User),
with the fields read by the User conversion in src/main.rs lines 170-179. -/
structure DisUser where
  id : Nat
  name : String
  bot : Bool

/-- Modelled from the spec: external membership record (twilight PartialMember)
carrying role ids in the record's order; the RoleId newtype is unwrapped. -/
structure PartialMember where
  roles : List Nat

/-- Modelled from the spec: the platform message-created event payload
(twilight Message), with the fields the conversions in src/main.rs read;
the flags bitfield is a Nat. -/
structure DisMessage where
  id : Nat
  guild_id : Option Nat
  channel_id : Nat
  author : DisUser
  member : Option PartialMember
  timestamp : String
  edited_timestamp : Option String
  kind : MessageType
  content : String
  attachments : List Attachment
  embeds : List Embed
  reactions : List MessageReaction
  application : Option MessageApplication
  flags : Option Nat

/-- Embeds raccord::User (src/main.rs lines 162-168). -/
structure User where
  id : Nat
  name : String
  bot : Bool
  roles : Option (List Nat)

/-- Embeds the From impl for User (src/main.rs lines 170-179):
direct field copy, roles stays none. -/
def User.fromDis (dis : DisUser) : User :=
  { id := dis.id, name := dis.name, bot := dis.bot, roles := none }

/-- Embeds User::merge_partial_member (src/main.rs lines 181-185): sets roles
to some of the member record role ids in the record's order (the Rust code
mutates in place; the embedding returns the updated user). -/
def User.merge_partial_member (u : User) (mem : PartialMember) : User :=
  { u with roles := some (mem.roles.map (fun role => role)) }

/-- Embeds raccord::MessageFlag (src/main.rs lines 187-194). -/
inductive MessageFlag where
  | Crossposted
  | IsCrosspost
  | SuppressEmbeds
  | SourceMessageDeleted
  | Urgent
deriving DecidableEq

-- Bit constants of the platform MessageFlags bitfield (twilight bitflags).
def DisMessageFlags.CROSSPOSTED : Nat := 1
def DisMessageFlags.IS_CROSSPOST : Nat := 2
def DisMessageFlags.SUPPRESS_EMBEDS : Nat := 4
def DisMessageFlags.SOURCE_MESSAGE_DELETED : Nat := 8
def DisMessageFlags.URGENT : Nat := 16

/-- Modelled from the spec: bitflags containment, all bits of the flag set. -/
def DisMessageFlags.contains (dis flag : Nat) : Bool :=
  dis &&& flag == flag

/-- Embeds MessageFlag::from_discord (src/main.rs lines 196-216): pushes each
flag, in the fixed declaration order, when the bitfield contains its bit. -/
def MessageFlag.from_discord (dis : Nat) : List MessageFlag :=
  (if DisMessageFlags.contains dis DisMessageFlags.CROSSPOSTED
    then [MessageFlag.Crossposted] else [])
  ++ (if DisMessageFlags.contains dis DisMessageFlags.IS_CROSSPOST
    then [MessageFlag.IsCrosspost] else [])
  ++ (if DisMessageFlags.contains dis DisMessageFlags.SUPPRESS_EMBEDS
    then [MessageFlag.SuppressEmbeds] else [])
  ++ (if DisMessageFlags.contains dis DisMessageFlags.SOURCE_MESSAGE_DELETED
    then [MessageFlag.SourceMessageDeleted] else [])
  ++ (if DisMessageFlags.contains dis DisMessageFlags.URGENT
    then [MessageFlag.Urgent] else [])

/-- The fixed enumeration order of MessageFlag (spec section 3). -/
def MessageFlag.enumeration : List MessageFlag :=
  [MessageFlag.Crossposted, MessageFlag.IsCrosspost, MessageFlag.SuppressEmbeds,
    MessageFlag.SourceMessageDeleted, MessageFlag.Urgent]

/-- The platform bit index corresponding to each flag. -/
def MessageFlag.bitIndex : MessageFlag → Nat
  | MessageFlag.Crossposted => 0
  | MessageFlag.IsCrosspost => 1
  | MessageFlag.SuppressEmbeds => 2
  | MessageFlag.SourceMessageDeleted => 3
  | MessageFlag.Urgent => 4

/-- Embeds raccord::ServerMessage (src/main.rs lines 218-237). -/
structure ServerMessage where
  id : Nat
  server_id : Nat
  channel_id : Nat
  author : User
  timestamp_created : String
  timestamp_edited : Option String
  kind : MessageType
  content : String
  attachments : List Attachment
  embeds : List Embed
  reactions : List MessageReaction
  application : Option MessageApplication
  flags : List MessageFlag

/-- Embeds Sendable::url for ServerMessage (src/main.rs lines 239-246). -/
def ServerMessage.url (m : ServerMessage) : String :=
  "/server/" ++ toString m.server_id ++ "/channel/" ++ toString m.channel_id ++ "/message"

/-- Embeds the From impl for ServerMessage (src/main.rs lines 248-280).
The Rust code first builds a merged author (lines 255-258), but the struct
literal at line 264 uses a fresh conversion of dis.author, so the merged
binding is discarded; the embedding reproduces that faithfully. The guild_id
unwrap at line 262 panics when guild_id is None; the panic is modelled as
Option.none. -/
def ServerMessage.fromDis (dis : DisMessage) : Option ServerMessage :=
  let author :=
    match dis.member with
    | some member => (User.fromDis dis.author).merge_partial_member member
    | none => User.fromDis dis.author
  dis.guild_id.map (fun gid =>
    { id := dis.id
      server_id := gid
      channel_id := dis.channel_id
      author := User.fromDis dis.author
      timestamp_created := dis.timestamp
      timestamp_edited := dis.edited_timestamp
      kind := dis.kind
      content := dis.content
      attachments := dis.attachments
      embeds := dis.embeds
      reactions := dis.reactions
      application := dis.application
      flags := (dis.flags.map MessageFlag.from_discord).getD [] })

/-- Embeds raccord::DirectMessage (src/main.rs lines 282-300). -/
structure DirectMessage where
  id : Nat
  channel_id : Nat
  author : User
  timestamp_created : String
  timestamp_edited : Option String
  kind : MessageType
  content : String
  attachments : List Attachment
  embeds : List Embed
  reactions : List MessageReaction
  application : Option MessageApplication
  flags : List MessageFlag

/-- Embeds Sendable::url for DirectMessage (src/main.rs lines 302-306). -/
def DirectMessage.url (m : DirectMessage) : String :=
  "/direct/" ++ toString m.channel_id ++ "/message"

/-- Embeds the From impl for DirectMessage (src/main.rs lines 308-334); here
the merged author binding IS used (line 318). -/
def DirectMessage.fromDis (dis : DisMessage) : DirectMessage :=
  let author :=
    match dis.member with
    | some member => (User.fromDis dis.author).merge_partial_member member
    | none => User.fromDis dis.author
  { id := dis.id
    channel_id := dis.channel_id
    author := author
    timestamp_created := dis.timestamp
    timestamp_edited := dis.edited_timestamp
    kind := dis.kind
    content := dis.content
    attachments := dis.attachments
    embeds := dis.embeds
    reactions := dis.reactions
    application := dis.application
    flags := (dis.flags.map MessageFlag.from_discord).getD [] }

/-- Embeds raccord::Command (src/main.rs lines 336-341); the context field is
a static string in Rust, a String here. -/
structure Command (M : Type) where
  command : List String
  context : String
  message : M

/-- Embeds Sendable::url for Command (src/main.rs lines 343-347). -/
def Command.url {M : Type} (c : Command M) : String :=
  "/command/" ++ String.intercalate "/" c.command ++ "?context=" ++ c.context

/-- Modelled from the spec: the external regex engine (regex crate) is
represented by its observable captures_iter behavior: for a given content, the
list of non-overlapping matches in text order, each match being the list of
its capture groups in group-index order with group 0 first, a participating
group carrying its matched substring and a non-participating group none. -/
structure Regex where
  captures : String → List (List (Option String))

/-- Embeds the raccord::Client configuration (src/main.rs lines 102-106); the
HTTP transport handle is an external collaborator (spec section 1). -/
structure Client where
  base : String
  command_regex : Option Regex

/-- Embeds Client::parse_command (src/main.rs lines 122-126): maps over the
optional compiled pattern; for each match the iterator skips group 0, keeps
the participating groups in index order, and is flattened across matches. -/
def Client.parse_command (c : Client) (content : String) : Option (List String) :=
  c.command_regex.map (fun rx =>
    ((rx.captures content).map (fun captures =>
      (captures.drop 1).filterMap id)).flatten)

/-- Embeds the URL construction in Client::post (src/main.rs line 146):
the configured base concatenated with the payload url. -/
def Client.post_url (c : Client) (payload_url : String) : String :=
  c.base ++ payload_url

/-- The token list described by the spec (section 4.2): the concatenation,
over all matches in text order and within each match over capture groups in
group-index order, of the matched substrings of participating groups,
skipping group 0 and skipping non-participating groups. -/
def specCommandTokens (ms : List (List (Option String))) : List String :=
  ms.flatMap (fun captures => (captures.drop 1).filterMap id)

/-- The gateway events the handler distinguishes (src/main.rs lines 355-379):
message-created, shard-connected, and every other kind. -/
inductive Event where
  | messageCreate (msg : DisMessage)
  | shardConnected
  | other

/-- The payload shapes the handler can post. -/
inductive Payload where
  | server (m : ServerMessage)
  | direct (m : DirectMessage)
  | commandServer (c : Command ServerMessage)
  | commandDirect (c : Command DirectMessage)

/-- Dispatch URL of a payload (Sendable::url dispatched by payload shape). -/
def Payload.url : Payload → String
  | Payload.server m => m.url
  | Payload.direct m => m.url
  | Payload.commandServer c => c.url
  | Payload.commandDirect c => c.url

/-- Observable outcome of handle_event for one event. -/
inductive HandleResult where
  | post (p : Payload)
  | logged (shard : Nat)
  | ignored

/-- Whether an outcome dispatches an HTTP POST. -/
def HandleResult.dispatches : HandleResult → Bool
  | HandleResult.post _ => true
  | _ => false

/-- Embeds handle_event (src/main.rs lines 350-382): classifies the event by
server association, normalizes, extracts a command, and posts either the
command wrapper or the plain message; shard-connected is logged; everything
else falls to the catch-all arm. Option.none models a panic in conversion. -/
def handle_event (target : Client) (event : Nat × Event) : Option HandleResult :=
  match event with
  | (_, Event.messageCreate msg) =>
    if msg.guild_id.isSome then
      (ServerMessage.fromDis msg).map (fun m =>
        match target.parse_command m.content with
        | some command =>
          HandleResult.post (Payload.commandServer
            { command := command, context := "server", message := m })
        | none => HandleResult.post (Payload.server m))
    else
      let m := DirectMessage.fromDis msg
      some (match target.parse_command m.content with
        | some command =>
          HandleResult.post (Payload.commandDirect
            { command := command, context := "direct", message := m })
        | none => HandleResult.post (Payload.direct m))
  | (id, Event.shardConnected) => some (HandleResult.logged id)
  | (_, Event.other) => some HandleResult.ignored

/-- Trace actions of the main event loop (src/main.rs lines 69-75): the
synchronous cache update for the i-th event, the spawn of its handler task,
and process termination when a cache update fails (the expect at line 71). -/
inductive LoopAction where
  | cacheUpdate (i : Nat)
  | spawnTask (i : Nat)
  | terminate
deriving DecidableEq

/-- Embeds the main event loop (src/main.rs lines 69-75) as a trace: for each
event in arrival order the cache is updated synchronously; on failure the
process terminates, otherwise the handler task is spawned and the loop reads
the next event. cacheOk i is the result of the cache update for the i-th
event, start is the index of the next event, and the last argument counts the
remaining events in the stream. -/
def runLoop (cacheOk : Nat → Bool) (start : Nat) : Nat → List LoopAction
  | 0 => []
  | n + 1 =>
    if cacheOk start then
      LoopAction.cacheUpdate start :: LoopAction.spawnTask start ::
        runLoop cacheOk (start + 1) n
    else
      [LoopAction.cacheUpdate start, LoopAction.terminate]

-- JSON encoding, as derived by serde: a struct is an object with its fields
-- in declared order; Option is null or the encoded value; Vec is an array;
-- u64 a number; String a string; a unit enum variant its name as a string.

/-- Serde encoding of an optional value: null when absent. -/
def encodeOpt {α : Type} (enc : α → Json) : Option α → Json
  | none => Json.null
  | some x => enc x

/-- Serde encoding of the modelled Attachment. -/
def encodeAttachment (a : Attachment) : Json := Json.num a.payload

/-- Serde encoding of the modelled Embed. -/
def encodeEmbed (e : Embed) : Json := Json.num e.payload

/-- Serde encoding of the modelled MessageReaction. -/
def encodeReaction (r : MessageReaction) : Json := Json.num r.payload

/-- Serde encoding of the modelled MessageApplication. -/
def encodeApplication (a : MessageApplication) : Json := Json.num a.payload

/-- Serde encoding of the modelled MessageType. -/
def encodeMessageType (k : MessageType) : Json := Json.num k.code

/-- Serde encoding of a MessageFlag unit variant: its name as a string. -/
def encodeFlag : MessageFlag → Json
  | MessageFlag.Crossposted => Json.str "Crossposted"
  | MessageFlag.IsCrosspost => Json.str "IsCrosspost"
  | MessageFlag.SuppressEmbeds => Json.str "SuppressEmbeds"
  | MessageFlag.SourceMessageDeleted => Json.str "SourceMessageDeleted"
  | MessageFlag.Urgent => Json.str "Urgent"

/-- Serde encoding of raccord::User, fields in declared order. -/
def encodeUser (u : User) : Json :=
  Json.obj [("id", Json.num u.id), ("name", Json.str u.name),
    ("bot", Json.bool u.bot),
    ("roles", encodeOpt (fun l => Json.arr (l.map Json.num)) u.roles)]

/-- Serde encoding of raccord::ServerMessage, fields in declared order
(src/main.rs lines 218-237). -/
def encodeServerMessage (m : ServerMessage) : Json :=
  Json.obj [("id", Json.num m.id), ("server_id", Json.num m.server_id),
    ("channel_id", Json.num m.channel_id), ("author", encodeUser m.author),
    ("timestamp_created", Json.str m.timestamp_created),
    ("timestamp_edited", encodeOpt Json.str m.timestamp_edited),
    ("kind", encodeMessageType m.kind), ("content", Json.str m.content),
    ("attachments", Json.arr (m.attachments.map encodeAttachment)),
    ("embeds", Json.arr (m.embeds.map encodeEmbed)),
    ("reactions", Json.arr (m.reactions.map encodeReaction)),
    ("application", encodeOpt encodeApplication m.application),
    ("flags", Json.arr (m.flags.map encodeFlag))]

/-- Serde encoding of raccord::DirectMessage, fields in declared order
(src/main.rs lines 282-300). -/
def encodeDirectMessage (m : DirectMessage) : Json :=
  Json.obj [("id", Json.num m.id), ("channel_id", Json.num m.channel_id),
    ("author", encodeUser m.author),
    ("timestamp_created", Json.str m.timestamp_created),
    ("timestamp_edited", encodeOpt Json.str m.timestamp_edited),
    ("kind", encodeMessageType m.kind), ("content", Json.str m.content),
    ("attachments", Json.arr (m.attachments.map encodeAttachment)),
    ("embeds", Json.arr (m.embeds.map encodeEmbed)),
    ("reactions", Json.arr (m.reactions.map encodeReaction)),
    ("application", encodeOpt encodeApplication m.application),
    ("flags", Json.arr (m.flags.map encodeFlag))]

/-- Modelled from the spec: object field lookup for the decoders; serde
struct deserialization reads fields by name (spec 4.3, 8). -/
def getField : List (String × Json) → String → Option Json
  | [], _ => none
  | (k, v) :: rest, key => if k = key then some v else getField rest key

/-- Modelled from the spec: number decoder for the round-trip property; the
repository derives only the serializer, so the inverse is modelled from the
JSON body shape (spec 4.3, 8). -/
def decodeNat : Json → Option Nat
  | Json.num n => some n
  | _ => none

/-- Modelled from the spec: boolean decoder (spec 4.3, 8). -/
def decodeBool : Json → Option Bool
  | Json.bool b => some b
  | _ => none

/-- Modelled from the spec: string decoder (spec 4.3, 8). -/
def decodeString : Json → Option String
  | Json.str s => some s
  | _ => none

/-- Modelled from the spec: element-wise list decoder (spec 4.3, 8). -/
def decodeListWith {α : Type} (dec : Json → Option α) : List Json → Option (List α)
  | [] => some []
  | j :: js => do
    let x ← dec j
    let xs ← decodeListWith dec js
    pure (x :: xs)

/-- Modelled from the spec: array decoder (spec 4.3, 8). -/
def decodeArrWith {α : Type} (dec : Json → Option α) : Json → Option (List α)
  | Json.arr js => decodeListWith dec js
  | _ => none

/-- Modelled from the spec: optional-value decoder, null decodes to none
(spec 4.3, 8). -/
def decodeOptWith {α : Type} (dec : Json → Option α) : Json → Option (Option α)
  | Json.null => some none
  | j => (dec j).map some

/-- Modelled from the spec: Attachment decoder (spec 4.3, 8). -/
def decodeAttachment (j : Json) : Option Attachment :=
  (decodeNat j).map (fun n => { payload := n })

/-- Modelled from the spec: Embed decoder (spec 4.3, 8). -/
def decodeEmbed (j : Json) : Option Embed :=
  (decodeNat j).map (fun n => { payload := n })

/-- Modelled from the spec: MessageReaction decoder (spec 4.3, 8). -/
def decodeReaction (j : Json) : Option MessageReaction :=
  (decodeNat j).map (fun n => { payload := n })

/-- Modelled from the spec: MessageApplication decoder (spec 4.3, 8). -/
def decodeApplication (j : Json) : Option MessageApplication :=
  (decodeNat j).map (fun n => { payload := n })

/-- Modelled from the spec: MessageType decoder (spec 4.3, 8). -/
def decodeMessageType (j : Json) : Option MessageType :=
  (decodeNat j).map (fun n => { code := n })

/-- Modelled from the spec: MessageFlag decoder, inverse of the variant-name
encoding (spec 4.3, 8). -/
def decodeFlag : Json → Option MessageFlag
  | Json.str "Crossposted" => some MessageFlag.Crossposted
  | Json.str "IsCrosspost" => some MessageFlag.IsCrosspost
  | Json.str "SuppressEmbeds" => some MessageFlag.SuppressEmbeds
  | Json.str "SourceMessageDeleted" => some MessageFlag.SourceMessageDeleted
  | Json.str "Urgent" => some MessageFlag.Urgent
  | _ => none

/-- Modelled from the spec: User decoder, inverse of the derived serializer
(spec 4.3, 8). -/
def decodeUser : Json → Option User
  | Json.obj fields => do
    let id ← getField fields "id" >>= decodeNat
    let name ← getField fields "name" >>= decodeString
    let bot ← getField fields "bot" >>= decodeBool
    let roles ← getField fields "roles" >>= decodeOptWith (decodeArrWith decodeNat)
    pure { id := id, name := name, bot := bot, roles := roles }
  | _ => none

/-- Modelled from the spec: ServerMessage decoder, inverse of the derived
serializer; the repository only derives serialization, and the round-trip
property of spec section 8 requires this inverse (spec 4.3, 8). -/
def decodeServerMessage : Json → Option ServerMessage
  | Json.obj fields => do
    let id ← getField fields "id" >>= decodeNat
    let server_id ← getField fields "server_id" >>= decodeNat
    let channel_id ← getField fields "channel_id" >>= decodeNat
    let author ← getField fields "author" >>= decodeUser
    let timestamp_created ← getField fields "timestamp_created" >>= decodeString
    let timestamp_edited ←
      getField fields "timestamp_edited" >>= decodeOptWith decodeString
    let kind ← getField fields "kind" >>= decodeMessageType
    let content ← getField fields "content" >>= decodeString
    let attachments ← getField fields "attachments" >>= decodeArrWith decodeAttachment
    let embeds ← getField fields "embeds" >>= decodeArrWith decodeEmbed
    let reactions ← getField fields "reactions" >>= decodeArrWith decodeReaction
    let application ←
      getField fields "application" >>= decodeOptWith decodeApplication
    let flags ← getField fields "flags" >>= decodeArrWith decodeFlag
    pure { id := id
           server_id := server_id
           channel_id := channel_id
           author := author
           timestamp_created := timestamp_created
           timestamp_edited := timestamp_edited
           kind := kind
           content := content
           attachments := attachments
           embeds := embeds
           reactions := reactions
           application := application
           flags := flags }
  | _ => none

/-- Modelled from the spec: DirectMessage decoder, inverse of the derived
serializer (spec 4.3, 8). -/
def decodeDirectMessage : Json → Option DirectMessage
  | Json.obj fields => do
    let id ← getField fields "id" >>= decodeNat
    let channel_id ← getField fields "channel_id" >>= decodeNat
    let author ← getField fields "author" >>= decodeUser
    let timestamp_created ← getField fields "timestamp_created" >>= decodeString
    let timestamp_edited ←
      getField fields "timestamp_edited" >>= decodeOptWith decodeString
    let kind ← getField fields "kind" >>= decodeMessageType
    let content ← getField fields "content" >>= decodeString
    let attachments ← getField fields "attachments" >>= decodeArrWith decodeAttachment
    let embeds ← getField fields "embeds" >>= decodeArrWith decodeEmbed
    let reactions ← getField fields "reactions" >>= decodeArrWith decodeReaction
    let application ←
      getField fields "application" >>= decodeOptWith decodeApplication
    let flags ← getField fields "flags" >>= decodeArrWith decodeFlag
    pure { id := id
           channel_id := channel_id
           author := author
           timestamp_created := timestamp_created
           timestamp_edited := timestamp_edited
           kind := kind
           content := content
           attachments := attachments
           embeds := embeds
           reactions := reactions
           application := application
           flags := flags }
  | _ => none

-- Concrete values used by counterexamples and witnesses.

/-- A compiled pattern with no match in any content offered below, e.g. the
pattern caret-bang-echo over plain greeting text. -/
def rxNoMatch : Regex := { captures := fun _ => [] }

/-- A client configured with a pattern that will not match. -/
def clientC2 : Client :=
  { base := "http://localhost:8000", command_regex := some rxNoMatch }

/-- A compiled pattern modelling bang-echo with one word capture group, run
over the content bang-echo-hello: one match whose group 0 is the whole text
and whose group 1 participates with the word hello. -/
def rxEcho : Regex :=
  { captures := fun content =>
      if content = "!echo hello" then [[some "!echo hello", some "hello"]]
      else [] }

/-- A client configured with the echo pattern. -/
def clientEcho : Client :=
  { base := "http://localhost:8000", command_regex := some rxEcho }

/-- A platform user for the concrete events. -/
def exUser : DisUser := { id := 42, name := "someone", bot := false }

/-- A membership record with roles 5 and 6, in that order. -/
def exMember : PartialMember := { roles := [5, 6] }

/-- A message-created payload carrying a server association and a membership
record. -/
def exMsg : DisMessage :=
  { id := 1, guild_id := some 7, channel_id := 3, author := exUser,
    member := some exMember, timestamp := "t0", edited_timestamp := none,
    kind := { code := 0 }, content := "!echo hello", attachments := [],
    embeds := [], reactions := [], application := none, flags := none }

/-- The same payload without a server association. -/
def exMsgDirect : DisMessage := { exMsg with guild_id := none }

-- Helper: bitflags containment of a single bit is a bit test.
theorem contains_two_pow (dis k : Nat) :
    DisMessageFlags.contains dis (2 ^ k) = dis.testBit k := by
  unfold DisMessageFlags.contains
  rw [Nat.and_two_pow]
  cases h : dis.testBit k
  · simp [h]
    intro hh
    have hpos : 0 < 2 ^ k := Nat.pow_pos (by norm_num)
    omega
  · simp [h]

/-- C4: for every platform flags bitfield, from_discord returns exactly the
flags whose bits are set, in the fixed enumeration order; the zero bitfield
yields the empty sequence; and a message event whose flags field is absent
converts to an empty flags sequence. -/
theorem C4_flags_from_bits (bits : Nat) (dis : DisMessage)
    (habsent : dis.flags = none) :
    MessageFlag.from_discord bits
        = MessageFlag.enumeration.filter (fun f => bits.testBit f.bitIndex)
      ∧ MessageFlag.from_discord 0 = []
      ∧ (DirectMessage.fromDis dis).flags = [] := by
  refine ⟨?_, rfl, ?_⟩
  · have h0 : DisMessageFlags.contains bits DisMessageFlags.CROSSPOSTED
        = bits.testBit 0 := contains_two_pow bits 0
    have h1 : DisMessageFlags.contains bits DisMessageFlags.IS_CROSSPOST
        = bits.testBit 1 := contains_two_pow bits 1
    have h2 : DisMessageFlags.contains bits DisMessageFlags.SUPPRESS_EMBEDS
        = bits.testBit 2 := contains_two_pow bits 2
    have h3 : DisMessageFlags.contains bits DisMessageFlags.SOURCE_MESSAGE_DELETED
        = bits.testBit 3 := contains_two_pow bits 3
    have h4 : DisMessageFlags.contains bits DisMessageFlags.URGENT
        = bits.testBit 4 := contains_two_pow bits 4
    unfold MessageFlag.from_discord MessageFlag.enumeration
    rw [h0, h1, h2, h3, h4]
    cases hb0 : bits.testBit 0 <;> cases hb1 : bits.testBit 1 <;>
      cases hb2 : bits.testBit 2 <;> cases hb3 : bits.testBit 3 <;>
      cases hb4 : bits.testBit 4 <;>
      simp [List.filter, MessageFlag.bitIndex, hb0, hb1, hb2, hb3, hb4]
  · unfold DirectMessage.fromDis
    rw [habsent]
    rfl

theorem C4_flags_from_bits_witness :
    MessageFlag.from_discord 21
        = MessageFlag.enumeration.filter (fun f => Nat.testBit 21 f.bitIndex)
      ∧ MessageFlag.from_discord 0 = []
      ∧ (DirectMessage.fromDis exMsg).flags = [] :=
  C4_flags_from_bits 21 exMsg rfl

/-- C1: evaluated at a message event carrying a membership record with roles
5, 6: the ServerMessage conversion discards the merged author (the struct
literal at src/main.rs line 264 uses a fresh User conversion), leaving roles
none, while the DirectMessage conversion keeps some [5, 6]; so the claim that
both conversions set roles to some of the record role ids fails on the
ServerMessage side, against the clear intent of lines 255-258. -/
theorem C1_server_roles_dropped :
    exMsg.member = some exMember
      ∧ exMember.roles = [5, 6]
      ∧ (ServerMessage.fromDis exMsg).map (fun m => m.author.roles) = some none
      ∧ (DirectMessage.fromDis exMsg).author.roles = some [5, 6] :=
  ⟨rfl, rfl, rfl, rfl⟩

/-- C2 counterexample: a client with a configured pattern that has zero
matches in the content still yields some (the empty token list), never none,
refuting the claim that zero matches produce no command. -/
theorem C2_counterexample :
    clientC2.command_regex = some rxNoMatch
      ∧ rxNoMatch.captures "hello" = []
      ∧ clientC2.parse_command "hello" = some []
      ∧ clientC2.parse_command "hello" ≠ none :=
  ⟨rfl, rfl, rfl, Option.some_ne_none _⟩

/-- C2 amended: for every content and configured pattern with zero matches,
parse_command returns some of the empty token list, so the message is
dispatched through the Command path carrying no tokens, not as a plain
message. -/
theorem C2_zero_matches_empty_command (c : Client) (rx : Regex)
    (content : String) (hcfg : c.command_regex = some rx)
    (hzero : rx.captures content = []) :
    c.parse_command content = some [] := by
  simp [Client.parse_command, hcfg, hzero]

theorem C2_zero_matches_empty_command_witness :
    clientC2.parse_command "hello" = some [] :=
  C2_zero_matches_empty_command clientC2 rxNoMatch "hello" rfl rfl

/-- C3: for every content and configured pattern with at least one match,
parse_command returns some of the concatenation, over all matches in text
order and within each match over capture groups in group-index order, of the
matched substrings of participating groups, skipping group 0 and skipping
non-participating groups. -/
theorem C3_tokens_flattened (c : Client) (rx : Regex) (content : String)
    (hcfg : c.command_regex = some rx)
    (hmatch : rx.captures content ≠ []) :
    c.parse_command content = some (specCommandTokens (rx.captures content)) := by
  simp [Client.parse_command, hcfg, specCommandTokens, List.flatMap]

theorem C3_tokens_flattened_witness :
    clientEcho.parse_command "!echo hello"
      = some (specCommandTokens (rxEcho.captures "!echo hello")) :=
  C3_tokens_flattened clientEcho rxEcho "!echo hello" rfl (by decide)

/-- C5: dispatch URL construction: a ServerMessage maps to its server and
channel path, a DirectMessage to its direct path, a Command to the slash-join
of its tokens with the context query, independently of the wrapped message;
and the full request URL is the configured base concatenated with the path. -/
theorem C5_urls :
    (∀ m : ServerMessage,
      m.url = "/server/" ++ toString m.server_id ++ "/channel/"
        ++ toString m.channel_id ++ "/message")
    ∧ (∀ m : DirectMessage,
      m.url = "/direct/" ++ toString m.channel_id ++ "/message")
    ∧ (∀ (M : Type) (c : Command M),
      c.url = "/command/" ++ String.intercalate "/" c.command
        ++ "?context=" ++ c.context)
    ∧ (∀ (M N : Type) (cmd : List String) (ctx : String) (m : M) (n : N),
      (Command.mk cmd ctx m).url = (Command.mk cmd ctx n).url)
    ∧ (∀ (c : Client) (u : String), c.post_url u = c.base ++ u) :=
  ⟨fun _ => rfl, fun _ => rfl, fun _ _ => rfl, fun _ _ _ _ _ _ => rfl,
    fun _ _ => rfl⟩

/-- C10: parse_command returns none exactly when no pattern is configured;
with a configured pattern it returns some token list for every content, so
every message-created event is routed through the Command path, and an empty
token list produces the URL /command/?context= followed by the context. -/
theorem C10_configured_always_some (c : Client) (rx : Regex) (content : String) :
    (c.parse_command content = none ↔ c.command_regex = none)
    ∧ (c.command_regex = some rx → ∃ tokens, c.parse_command content = some tokens)
    ∧ (∀ (M : Type) (ctx : String) (m : M),
      (Command.mk ([] : List String) ctx m).url = "/command/?context=" ++ ctx) := by
  refine ⟨?_, ?_, ?_⟩
  · cases h : c.command_regex <;> simp [Client.parse_command, h]
  · intro h
    refine ⟨((rx.captures content).map (fun captures =>
      (captures.drop 1).filterMap id)).flatten, ?_⟩
    simp [Client.parse_command, h]
  · intro M ctx m
    rfl

theorem C10_configured_always_some_witness :
    (clientEcho.parse_command "abc" = none ↔ clientEcho.command_regex = none)
      ∧ ∃ tokens, clientEcho.parse_command "abc" = some tokens :=
  ⟨(C10_configured_always_some clientEcho rxEcho "abc").1,
    (C10_configured_always_some clientEcho rxEcho "abc").2.1 rfl⟩

/-- C6: handler classification: a message-created event with a server
association is normalized via the ServerMessage conversion and dispatched
with context server (through the Command wrapper when a command is parsed);
one without a server association is normalized as a DirectMessage and
dispatched with context direct; a shard-connected event is logged and
dispatches nothing; every other event kind is ignored and dispatches
nothing. -/
theorem C6_classification (c : Client) (i : Nat) (msg : DisMessage) :
    (msg.guild_id.isSome = true →
      handle_event c (i, Event.messageCreate msg)
        = (ServerMessage.fromDis msg).map (fun m =>
            match c.parse_command m.content with
            | some command =>
              HandleResult.post (Payload.commandServer
                { command := command, context := "server", message := m })
            | none => HandleResult.post (Payload.server m)))
    ∧ (msg.guild_id = none →
      handle_event c (i, Event.messageCreate msg)
        = some (match c.parse_command (DirectMessage.fromDis msg).content with
            | some command =>
              HandleResult.post (Payload.commandDirect
                { command := command, context := "direct",
                  message := DirectMessage.fromDis msg })
            | none => HandleResult.post (Payload.direct (DirectMessage.fromDis msg))))
    ∧ (handle_event c (i, Event.shardConnected) = some (HandleResult.logged i)
      ∧ (HandleResult.logged i).dispatches = false)
    ∧ (handle_event c (i, Event.other) = some HandleResult.ignored
      ∧ HandleResult.ignored.dispatches = false) := by
  refine ⟨?_, ?_, ⟨rfl, rfl⟩, ⟨rfl, rfl⟩⟩
  · intro h
    simp [handle_event, h]
  · intro h
    simp [handle_event, h]

theorem C6_classification_witness :
    handle_event clientEcho (0, Event.messageCreate exMsg)
        = (ServerMessage.fromDis exMsg).map (fun m =>
            match clientEcho.parse_command m.content with
            | some command =>
              HandleResult.post (Payload.commandServer
                { command := command, context := "server", message := m })
            | none => HandleResult.post (Payload.server m))
      ∧ handle_event clientEcho (0, Event.messageCreate exMsgDirect)
        = some (match clientEcho.parse_command (DirectMessage.fromDis exMsgDirect).content with
            | some command =>
              HandleResult.post (Payload.commandDirect
                { command := command, context := "direct",
                  message := DirectMessage.fromDis exMsgDirect })
            | none => HandleResult.post (Payload.direct (DirectMessage.fromDis exMsgDirect))) :=
  ⟨(C6_classification clientEcho 0 exMsg).1 rfl,
    (C6_classification clientEcho 0 exMsgDirect).2.1 rfl⟩

/-- C7: for every event carrying a guild id the ServerMessage conversion
succeeds, so its panic branch is unreachable there; and because handle_event
classifies on the guild id before converting, the handler produces a result
(never reaches the panic) for every event it processes. -/
theorem C7_panic_unreachable :
    (∀ dis : DisMessage, dis.guild_id.isSome = true →
      (ServerMessage.fromDis dis).isSome = true)
    ∧ (∀ (c : Client) (ev : Nat × Event), (handle_event c ev).isSome = true) := by
  constructor
  · intro dis h
    rcases hg : dis.guild_id with _ | gid
    · rw [hg] at h
      simp at h
    · simp [ServerMessage.fromDis, hg]
  · intro c ev
    rcases ev with ⟨i, e⟩
    cases e with
    | messageCreate msg =>
      rcases hg : msg.guild_id with _ | gid
      · simp [handle_event, hg]
      · simp [handle_event, hg, ServerMessage.fromDis]
    | shardConnected => rfl
    | other => rfl

theorem C7_panic_unreachable_witness :
    (ServerMessage.fromDis exMsg).isSome = true
      ∧ (handle_event clientEcho (0, Event.messageCreate exMsg)).isSome = true :=
  ⟨C7_panic_unreachable.1 exMsg rfl,
    C7_panic_unreachable.2 clientEcho (0, Event.messageCreate exMsg)⟩

-- Helper: every spawn action in a loop trace refers to an event at or after
-- the start index.
theorem runLoop_spawn_index_ge (cacheOk : Nat → Bool) :
    ∀ (n start i : Nat),
      LoopAction.spawnTask i ∈ runLoop cacheOk start n → start ≤ i := by
  intro n
  induction n with
  | zero => intro start i h; simp [runLoop] at h
  | succ n ih =>
    intro start i h
    rw [runLoop] at h
    by_cases hc : cacheOk start
    · rw [if_pos hc] at h
      rw [List.mem_cons, List.mem_cons] at h
      rcases h with h | h | h
      · exact absurd h (by simp)
      · cases h
        exact Nat.le_refl _
      · exact Nat.le_of_succ_le (ih (start + 1) i h)
    · rw [if_neg hc] at h
      simp at h

-- Helper: every spawn in a loop trace is immediately preceded by its own
-- successful cache update, with no action of that event or a later one
-- anywhere before it.
theorem runLoop_spawn_decomp (cacheOk : Nat → Bool) :
    ∀ (n start i : Nat),
      LoopAction.spawnTask i ∈ runLoop cacheOk start n →
      cacheOk i = true
        ∧ ∃ l₁ l₂, runLoop cacheOk start n
            = l₁ ++ LoopAction.cacheUpdate i :: LoopAction.spawnTask i :: l₂
          ∧ ∀ j, i ≤ j →
              LoopAction.cacheUpdate j ∉ l₁ ∧ LoopAction.spawnTask j ∉ l₁ := by
  intro n
  induction n with
  | zero => intro start i h; simp [runLoop] at h
  | succ n ih =>
    intro start i h
    rw [runLoop] at h ⊢
    by_cases hc : cacheOk start
    · rw [if_pos hc] at h ⊢
      rw [List.mem_cons, List.mem_cons] at h
      rcases h with h | h | h
      · exact absurd h (by simp)
      · cases h
        exact ⟨hc, [], runLoop cacheOk (start + 1) n, rfl, fun j _ => by simp⟩
      · have hge : start + 1 ≤ i := runLoop_spawn_index_ge cacheOk n (start + 1) i h
        obtain ⟨hok, l₁, l₂, hdec, hnone⟩ := ih (start + 1) i h
        refine ⟨hok, LoopAction.cacheUpdate start :: LoopAction.spawnTask start :: l₁,
          l₂, ?_, ?_⟩
        · rw [hdec]
          rfl
        · intro j hj
          have hjs : start < j := Nat.lt_of_lt_of_le hge hj
          constructor
          · intro hmem
            rw [List.mem_cons, List.mem_cons] at hmem
            rcases hmem with hmem | hmem | hmem
            · cases hmem
              exact Nat.lt_irrefl _ hjs
            · exact absurd hmem (by simp)
            · exact (hnone j hj).1 hmem
          · intro hmem
            rw [List.mem_cons, List.mem_cons] at hmem
            rcases hmem with hmem | hmem | hmem
            · exact absurd hmem (by simp)
            · cases hmem
              exact Nat.lt_irrefl _ hjs
            · exact (hnone j hj).2 hmem
    · rw [if_neg hc] at h
      simp at h

/-- C8: in the event-loop trace, every spawned handler task is immediately
preceded by its own successful cache update, and no cache update or spawn of
that event or any later one occurs before it, so the cache update completes
before the task is spawned and before the next event is read; and when the
cache update of an event fails, that event is never spawned, so no POST is
issued for it. -/
theorem C8_cache_before_spawn (cacheOk : Nat → Bool) (n start i : Nat) :
    (LoopAction.spawnTask i ∈ runLoop cacheOk start n →
      cacheOk i = true
        ∧ ∃ l₁ l₂, runLoop cacheOk start n
            = l₁ ++ LoopAction.cacheUpdate i :: LoopAction.spawnTask i :: l₂
          ∧ ∀ j, i ≤ j →
              LoopAction.cacheUpdate j ∉ l₁ ∧ LoopAction.spawnTask j ∉ l₁)
    ∧ (cacheOk i = false → LoopAction.spawnTask i ∉ runLoop cacheOk start n) := by
  constructor
  · exact runLoop_spawn_decomp cacheOk n start i
  · intro hfail hmem
    have := (runLoop_spawn_decomp cacheOk n start i hmem).1
    rw [hfail] at this
    exact Bool.false_ne_true this

theorem C8_cache_before_spawn_witness :
    ((fun _ => true) 0 = true
      ∧ ∃ l₁ l₂, runLoop (fun _ => true) 0 2
          = l₁ ++ LoopAction.cacheUpdate 0 :: LoopAction.spawnTask 0 :: l₂
        ∧ ∀ j, 0 ≤ j →
            LoopAction.cacheUpdate j ∉ l₁ ∧ LoopAction.spawnTask j ∉ l₁)
    ∧ LoopAction.spawnTask 0 ∉ runLoop (fun _ => false) 0 2 :=
  ⟨(C8_cache_before_spawn (fun _ => true) 2 0 0).1 (by decide),
    (C8_cache_before_spawn (fun _ => false) 2 0 0).2 rfl⟩

-- Helper: an element-wise decoder undoes an element-wise encoding.
theorem decodeListWith_map_encode {α : Type} (dec : Json → Option α)
    (enc : α → Json) (h : ∀ a, dec (enc a) = some a) :
    ∀ l : List α, decodeListWith dec (l.map enc) = some l := by
  intro l
  induction l with
  | nil => rfl
  | cons x xs ih => simp [decodeListWith, h, ih]

-- Helper: flag decoding undoes flag encoding.
theorem decodeFlag_encodeFlag (f : MessageFlag) :
    decodeFlag (encodeFlag f) = some f := by
  cases f <;> rfl

-- Helper: user decoding undoes user encoding.
theorem decodeUser_encodeUser (u : User) :
    decodeUser (encodeUser u) = some u := by
  rcases u with ⟨i, nm, b, r⟩
  rcases r with _ | l
  · rfl
  · simp [encodeUser, decodeUser, getField, encodeOpt, decodeOptWith,
      decodeArrWith, decodeNat, decodeString, decodeBool,
      decodeListWith_map_encode decodeNat Json.num (fun a => rfl)]

/-- C9: serializing a ServerMessage or a DirectMessage to JSON and decoding
that JSON back yields the original value, field for field. -/
theorem C9_json_roundtrip :
    (∀ m : ServerMessage, decodeServerMessage (encodeServerMessage m) = some m)
    ∧ (∀ m : DirectMessage, decodeDirectMessage (encodeDirectMessage m) = some m) := by
  constructor
  · intro m
    rcases m with ⟨id, sid, cid, author, tc, te, kind, content, atts, embs, reacts, app, fls⟩
    rcases te with _ | te <;> rcases app with _ | app <;>
      simp [encodeServerMessage, decodeServerMessage, getField, encodeOpt,
        decodeOptWith, decodeUser_encodeUser, decodeNat, decodeString,
        decodeMessageType, encodeMessageType, decodeArrWith, decodeApplication,
        encodeApplication,
        decodeListWith_map_encode decodeAttachment encodeAttachment (fun a => rfl),
        decodeListWith_map_encode decodeEmbed encodeEmbed (fun a => rfl),
        decodeListWith_map_encode decodeReaction encodeReaction (fun a => rfl),
        decodeListWith_map_encode decodeFlag encodeFlag decodeFlag_encodeFlag]
  · intro m
    rcases m with ⟨id, cid, author, tc, te, kind, content, atts, embs, reacts, app, fls⟩
    rcases te with _ | te <;> rcases app with _ | app <;>
      simp [encodeDirectMessage, decodeDirectMessage, getField, encodeOpt,
        decodeOptWith, decodeUser_encodeUser, decodeNat, decodeString,
        decodeMessageType, encodeMessageType, decodeArrWith, decodeApplication,
        encodeApplication,
        decodeListWith_map_encode decodeAttachment encodeAttachment (fun a => rfl),
        decodeListWith_map_encode decodeEmbed encodeEmbed (fun a => rfl),
        decodeListWith_map_encode decodeReaction encodeReaction (fun a => rfl),
        decodeListWith_map_encode decodeFlag encodeFlag decodeFlag_encodeFlag]
